import Mathlib

/-!
Verification of the build-repo-ui front-end component (`CommandRunner`).

The component keeps an ordered log of `OutputMessage`s, an optional active
command identifier, a loading flag, and a cached repo list.  Stream events
(`commandOutput`, `commandFinished`) fold into this state; `deployRepo` and
`stopProcess` are the two REST-triggering operations.  All definitions below
are shallow embeddings of the TypeScript source: `Option` models absent
fields, JavaScript truthiness of a string is "present and non-empty", and
the `Date.now()` identifier is passed in as an explicit `newId` parameter.
-/

namespace BuildRepoUI

/-- The `type` field of an `OutputMessage` (`'stdout' | 'stderr' | 'system' |
'success' | 'error'`). -/
inductive MsgType
  | stdout
  | stderr
  | system
  | success
  | error
deriving DecidableEq, Repr

instance : Inhabited MsgType := ⟨MsgType.stdout⟩

/-- Structure `OutputMessage` from the source: one entry of the rendered log.  The
optional `isProgress?`/`replaceLast?` booleans are modelled with `false` for
`undefined`, since the source only ever tests their truthiness. -/
structure OutputMessage where
  id : Nat
  text : String
  type : MsgType
  isProgress : Bool
  replaceLast : Bool
deriving DecidableEq, Repr

instance : Inhabited OutputMessage :=
  ⟨{ id := 0, text := "", type := MsgType.stdout, isProgress := false, replaceLast := false }⟩

/-- Structure `SocketMessage` from the source: the payload of a `commandOutput` or
`commandFinished` stream event.  Optional fields are `Option`s; the
`outputType` string is modelled directly as an optional `MsgType` (the source
casts it and defaults to `'stdout'` when falsy). -/
structure SocketMessage where
  commandId : String
  output : Option String
  outputType : Option MsgType
  exitCode : Option Int
  isProgress : Bool
  replaceLast : Bool
deriving DecidableEq, Repr

/-- Structure `ApiResponse` from the source: the JSON body of the REST responses. -/
structure ApiResponse where
  success : Bool
  commandId : Option String
  error : Option String
  repos : Option (List String)
deriving DecidableEq, Repr

/-- Result of a `fetch`: either a parsed `ApiResponse`, or a thrown
network/transport error carrying a message. -/
inductive FetchResult
  | ok (data : ApiResponse)
  | netError (message : String)
deriving DecidableEq, Repr

/-- The component's state: the `useState` cells of `CommandRunner`, plus a
ghost counter `repoRefreshes` counting how many times `fetchDeployedRepos`
has been triggered (so "no repo-list refresh" is expressible). -/
structure State where
  gitUrl : String
  branch : String
  output : List OutputMessage
  activeCommandId : Option String
  deployedRepos : List String
  isLoading : Bool
  isConnected : Bool
  repoRefreshes : Nat
deriving DecidableEq, Repr

/-- Inner downward loop of `findLastIndex`: scans indices `n-1, n-2, ..., 0`
of `array`, returning the first index whose element satisfies `predicate`,
and `-1` if none does. -/
def findLastIndexFrom {T : Type} (array : List T) (predicate : T → Bool) : Nat → Int
  | 0 => -1
  | i + 1 =>
    match array.get? i with
    | some v => if predicate v then (i : Int) else findLastIndexFrom array predicate i
    | none => findLastIndexFrom array predicate i

/-- The source's custom `findLastIndex`: index of the last element satisfying
`predicate`, or `-1`. -/
def findLastIndex {T : Type} (array : List T) (predicate : T → Bool) : Int :=
  findLastIndexFrom array predicate array.length

/-- The candidate `OutputMessage` the `commandOutput` handler builds from an
event (`text: data.output || ''`, `type: data.outputType || 'stdout'`). -/
def buildOutputMessage (newId : Nat) (data : SocketMessage) : OutputMessage :=
  { id := newId
    text := data.output.getD ""
    type := data.outputType.getD MsgType.stdout
    isProgress := data.isProgress
    replaceLast := data.replaceLast }

/-- The `commandOutput` handler's `setOutput` functional: the output
reconciler.  An event with falsy (absent or empty) `output` text is a no-op;
a progress+replaceLast event overwrites the last entry marked `isProgress`
when one exists; otherwise the candidate entry is appended. -/
def applyCommandOutput (newId : Nat) (prev : List OutputMessage) (data : SocketMessage) :
    List OutputMessage :=
  if data.output.getD "" = "" then prev
  else
    let outputMessage := buildOutputMessage newId data
    if data.isProgress && data.replaceLast then
      let lastProgressIndex := findLastIndex prev (fun msg => msg.isProgress)
      if lastProgressIndex ≠ -1 then
        prev.set lastProgressIndex.toNat outputMessage
      else
        prev ++ [outputMessage]
    else
      prev ++ [outputMessage]

/-- The `commandOutput` handler lifted to the component state. -/
def handleCommandOutput (newId : Nat) (st : State) (data : SocketMessage) : State :=
  { st with output := applyCommandOutput newId st.output data }

/-- The terminal summary entry appended by the `commandFinished` handler. -/
def finishedMessage (newId : Nat) (code : Int) : OutputMessage :=
  { id := newId
    text := "Process finished with exit code: " ++ toString code
    type := if code = 0 then MsgType.success else MsgType.error
    isProgress := false
    replaceLast := false }

/-- The `commandFinished` handler: guarded by `typeof data.exitCode ===
'number'`; when the guard passes it appends one summary entry, clears the
active command, clears the loading flag and triggers a repo-list refresh. -/
def handleCommandFinished (newId : Nat) (st : State) (data : SocketMessage) : State :=
  match data.exitCode with
  | none => st
  | some code =>
    { st with
      output := st.output ++ [finishedMessage newId code]
      activeCommandId := none
      isLoading := false
      repoRefreshes := st.repoRefreshes + 1 }

/-- Model of the JavaScript `String.prototype.trim` built-in used by the
source (`gitUrl.trim()`): drops leading and trailing whitespace.  Defined by
structural recursion over the character list so that it evaluates. -/
def jsTrim (s : String) : String :=
  ⟨((s.data.dropWhile Char.isWhitespace).reverse.dropWhile Char.isWhitespace).reverse⟩

/-- The error text of the deploy failure branches (`data.error || 'Unknown
error'`, and the thrown error's message on the catch path). -/
def deployErrorText (resp : FetchResult) : String :=
  match resp with
  | FetchResult.ok data =>
    "Error: " ++ (match data.error with
      | some e => if e = "" then "Unknown error" else e
      | none => "Unknown error")
  | FetchResult.netError message => "Error: " ++ message

/-- Operation `deployRepo`: returns the post-call state and whether a network request
was issued.  An empty/whitespace-only `gitUrl` returns before any call.
Otherwise the log is cleared and loading set; a successful response with a
truthy `commandId` records it as active, and any failure appends one error
entry and clears the loading flag. -/
def deployRepo (newId : Nat) (st : State) (resp : FetchResult) : State × Bool :=
  if jsTrim st.gitUrl = "" then (st, false)
  else
    let st1 := { st with output := [], isLoading := true }
    match resp with
    | FetchResult.ok data =>
      if data.success && (data.commandId.getD "" != "") then
        ({ st1 with activeCommandId := data.commandId }, true)
      else
        ({ st1 with
            output := st1.output ++
              [{ id := newId, text := deployErrorText resp, type := MsgType.error
                 , isProgress := false, replaceLast := false }]
            isLoading := false }, true)
    | FetchResult.netError _ =>
      ({ st1 with
          output := st1.output ++
            [{ id := newId, text := deployErrorText resp, type := MsgType.error
               , isProgress := false, replaceLast := false }]
          isLoading := false }, true)

/-- Operation `stopProcess`: returns the post-call state and whether a network request
was issued.  A falsy `activeCommandId` (absent, or the empty string) returns
before any call; in every case the handler performs no state mutation (the
response only feeds `console.error` on failure). -/
def stopProcess (st : State) (_resp : FetchResult) : State × Bool :=
  if st.activeCommandId.getD "" = "" then (st, false) else (st, true)

/-- The success condition of the deploy response branch (`data.success &&
data.commandId` with JavaScript truthiness of the identifier string). -/
def deploySucceeds (resp : FetchResult) : Bool :=
  match resp with
  | FetchResult.ok data => data.success && (data.commandId.getD "" != "")
  | FetchResult.netError _ => false

/-- The error entry appended on a failed deploy request. -/
def deployErrorMessage (newId : Nat) (resp : FetchResult) : OutputMessage :=
  { id := newId, text := deployErrorText resp, type := MsgType.error
    , isProgress := false, replaceLast := false }

section FindLastIndexLemmas

variable {T : Type}

/-- If no element at an index below `n` satisfies the predicate, the downward
scan from `n` reports `-1`. -/
theorem findLastIndexFrom_eq_neg_one (array : List T) (p : T → Bool) :
    ∀ n, (∀ j, j < n → ∀ w, array.get? j = some w → p w = false) →
      findLastIndexFrom array p n = -1 := by
  intro n
  induction n with
  | zero => intro _; rfl
  | succ i ih =>
    intro hnone
    show findLastIndexFrom array p (i + 1) = -1
    unfold findLastIndexFrom
    cases hgi : array.get? i with
    | some w =>
      have hw : p w = false := hnone i (Nat.lt_succ_self i) w hgi
      simp only [hgi, hw, if_neg (Bool.false_ne_true)]
      exact ih fun j hj w hw => hnone j (Nat.lt_succ_of_lt hj) w hw
    | none =>
      simp only [hgi]
      exact ih fun j hj w hw => hnone j (Nat.lt_succ_of_lt hj) w hw

/-- If the element at index `k` satisfies the predicate and no later index
below `n` does, the downward scan from `n` reports `k`. -/
theorem findLastIndexFrom_eq_last (array : List T) (p : T → Bool) (k : Nat) (v : T)
    (hv : array.get? k = some v) (hp : p v = true) :
    ∀ n, k < n →
      (∀ j, j < n → k < j → ∀ w, array.get? j = some w → p w = false) →
      findLastIndexFrom array p n = (k : Int) := by
  intro n
  induction n with
  | zero => intro h; exact absurd h (Nat.not_lt_zero k)
  | succ i ih =>
    intro hkn hafter
    show findLastIndexFrom array p (i + 1) = (k : Int)
    unfold findLastIndexFrom
    rcases Nat.lt_succ_iff_lt_or_eq.mp hkn with hki | hki
    · cases hgi : array.get? i with
      | some w =>
        have hw : p w = false := hafter i (Nat.lt_succ_self i) hki w hgi
        simp only [hgi, hw, if_neg (Bool.false_ne_true)]
        exact ih hki fun j hj hkj w hw => hafter j (Nat.lt_succ_of_lt hj) hkj w hw
      | none =>
        simp only [hgi]
        exact ih hki fun j hj hkj w hw => hafter j (Nat.lt_succ_of_lt hj) hkj w hw
    · subst hki
      simp only [List.get?_eq_getElem?] at hv
      simp [hv, hp]

/-- The downward scan reports either `-1` or an index whose element satisfies
the predicate. -/
theorem findLastIndexFrom_spec (array : List T) (p : T → Bool) :
    ∀ n, findLastIndexFrom array p n = -1 ∨
      ∃ (k : Nat) (v : T),
        findLastIndexFrom array p n = (k : Int) ∧ array.get? k = some v ∧ p v = true := by
  intro n
  induction n with
  | zero => exact Or.inl rfl
  | succ i ih =>
    show findLastIndexFrom array p (i + 1) = -1 ∨ _
    unfold findLastIndexFrom
    cases hgi : array.get? i with
    | some w =>
      by_cases hw : p w = true
      · exact Or.inr ⟨i, w, by simp [hgi, hw], hgi, hw⟩
      · simpa [hgi, hw] using ih
    | none => simpa [hgi] using ih

end FindLastIndexLemmas

section ApplyLemmas

/-- A non-empty-text event that is not progress+replaceLast is appended. -/
theorem applyCommandOutput_append (newId : Nat) (lg : List OutputMessage)
    (data : SocketMessage) (htext : data.output.getD "" ≠ "")
    (hflag : (data.isProgress && data.replaceLast) = false) :
    applyCommandOutput newId lg data = lg ++ [buildOutputMessage newId data] := by
  simp [applyCommandOutput, htext, hflag]

/-- A non-empty-text progress+replaceLast event with no progress entry in the
log is appended. -/
theorem applyCommandOutput_progress_notFound (newId : Nat) (lg : List OutputMessage)
    (data : SocketMessage) (htext : data.output.getD "" ≠ "")
    (hnone : ∀ e ∈ lg, e.isProgress = false) :
    applyCommandOutput newId lg data = lg ++ [buildOutputMessage newId data] := by
  by_cases hflag : (data.isProgress && data.replaceLast) = true
  · have hidx : findLastIndex lg (fun msg => msg.isProgress) = -1 := by
      apply findLastIndexFrom_eq_neg_one
      intro j _ w hw
      exact hnone w (List.get?_mem hw)
    simp [applyCommandOutput, htext, hflag, findLastIndex] at hidx ⊢
    simp [hidx]
  · exact applyCommandOutput_append newId lg data htext (Bool.not_eq_true _ ▸ hflag)

/-- A non-empty-text progress+replaceLast event overwrites the last progress
entry in place when one exists at index `k`. -/
theorem applyCommandOutput_progress_found (newId : Nat) (lg : List OutputMessage)
    (data : SocketMessage) (k : Nat) (v : OutputMessage)
    (htext : data.output.getD "" ≠ "")
    (hflag : (data.isProgress && data.replaceLast) = true)
    (hv : lg.get? k = some v) (hp : v.isProgress = true)
    (hafter : ∀ j, j < lg.length → k < j → ∀ w, lg.get? j = some w → w.isProgress = false) :
    applyCommandOutput newId lg data = lg.set k (buildOutputMessage newId data) := by
  have hk : k < lg.length := List.get?_eq_some.mp hv |>.1
  have hidx : findLastIndex lg (fun msg => msg.isProgress) = (k : Int) :=
    findLastIndexFrom_eq_last lg (fun msg => msg.isProgress) k v hv hp lg.length hk hafter
  have hne : ((k : Int) ≠ -1) := by omega
  simp [applyCommandOutput, htext, hflag, hidx, hne]

end ApplyLemmas

section Fixtures

/-- A concrete component state used to instantiate the theorems. -/
def exState : State :=
  { gitUrl := "https://example.com/repo.git", branch := "main", output := []
    , activeCommandId := some "cmd-1", deployedRepos := [], isLoading := true
    , isConnected := true, repoRefreshes := 0 }

/-- A concrete progress log entry. -/
def exProgressEntry : OutputMessage :=
  { id := 1, text := "10%", type := MsgType.stdout, isProgress := true, replaceLast := true }

/-- A concrete plain (non-progress) log entry. -/
def exPlainEntry : OutputMessage :=
  { id := 2, text := "cloning", type := MsgType.stdout, isProgress := false
    , replaceLast := false }

/-- A concrete progress+replaceLast event. -/
def exProgressEvent : SocketMessage :=
  { commandId := "cmd-1", output := some "55%", outputType := none, exitCode := none
    , isProgress := true, replaceLast := true }

/-- A concrete non-progress event with non-empty text. -/
def exPlainEvent : SocketMessage :=
  { commandId := "cmd-1", output := some "done", outputType := none, exitCode := none
    , isProgress := false, replaceLast := false }

/-- A concrete event with absent text and no progress flags. -/
def exEmptyEvent : SocketMessage :=
  { commandId := "cmd-1", output := none, outputType := none, exitCode := none
    , isProgress := false, replaceLast := false }

/-- A concrete terminal event with exit code `0`. -/
def exFinishedEvent : SocketMessage :=
  { commandId := "cmd-1", output := none, outputType := none, exitCode := some 0
    , isProgress := false, replaceLast := false }

end Fixtures

/-- Claim C1: for a commandOutput event with non-empty text, isProgress=true
and replaceLast=true, if the log has a last progress entry at index k, the
result keeps its length, position k carries the event's text and kind, and
every other position is unchanged; if the log has no progress entry, the
event's entry is appended instead. -/
theorem claim_C1_progress_replace (newId : Nat) (lg : List OutputMessage)
    (data : SocketMessage) (htext : data.output.getD "" ≠ "")
    (hprog : data.isProgress = true) (hrep : data.replaceLast = true) :
    (∀ k, ∀ hk : k < lg.length, (lg.get ⟨k, hk⟩).isProgress = true →
      (∀ j, j < lg.length → k < j →
        ∀ hj : j < lg.length, (lg.get ⟨j, hj⟩).isProgress = false) →
      (applyCommandOutput newId lg data).length = lg.length ∧
      ((applyCommandOutput newId lg data).getD k default).text = data.output.getD "" ∧
      ((applyCommandOutput newId lg data).getD k default).type
        = data.outputType.getD MsgType.stdout ∧
      (∀ j, j ≠ k →
        (applyCommandOutput newId lg data).getD j default = lg.getD j default)) ∧
    ((∀ e ∈ lg, e.isProgress = false) →
      applyCommandOutput newId lg data = lg ++ [buildOutputMessage newId data]) := by
  have hflag : (data.isProgress && data.replaceLast) = true := by rw [hprog, hrep]; rfl
  constructor
  · intro k hk hkp hafter
    have hv : lg.get? k = some (lg.get ⟨k, hk⟩) := List.get?_eq_get hk
    have hset : applyCommandOutput newId lg data
        = lg.set k (buildOutputMessage newId data) := by
      apply applyCommandOutput_progress_found newId lg data k (lg.get ⟨k, hk⟩) htext hflag hv
        hkp
      intro j hj hkj w hw
      have hjlen : j < lg.length := (List.get?_eq_some.mp hw).1
      have hwv : w = lg.get ⟨j, hjlen⟩ := by
        rw [List.get?_eq_get hjlen] at hw
        exact (Option.some_inj.mp hw).symm
      rw [hwv]
      exact hafter j hj hkj hjlen
    rw [hset]
    refine ⟨List.length_set .., ?_, ?_, ?_⟩
    · have hat : (lg.set k (buildOutputMessage newId data))[k]?
          = some (buildOutputMessage newId data) := List.getElem?_set_eq_of_lt _ hk
      simp only [List.getD]
      rw [List.get?_eq_getElem?, hat]
      simp [buildOutputMessage]
    · have hat : (lg.set k (buildOutputMessage newId data))[k]?
          = some (buildOutputMessage newId data) := List.getElem?_set_eq_of_lt _ hk
      simp only [List.getD]
      rw [List.get?_eq_getElem?, hat]
      simp [buildOutputMessage]
    · intro j hjk
      have hne : k ≠ j := fun h => hjk h.symm
      have hset2 : (lg.set k (buildOutputMessage newId data))[j]? = lg[j]? :=
        List.getElem?_set_ne hne
      simp [List.getD, hset2]
  · intro hnone
    exact applyCommandOutput_progress_notFound newId lg data htext hnone

/-- Witness for C1 at a one-entry log whose single entry is a progress entry:
the progress+replaceLast event "55%" keeps the length at 1 and rewrites
position 0's text to "55%"; on an empty log it appends instead. -/
theorem claim_C1_progress_replace_witness :
    (applyCommandOutput 7 [exProgressEntry] exProgressEvent).length = 1 ∧
    ((applyCommandOutput 7 [exProgressEntry] exProgressEvent).getD 0 default).text = "55%" ∧
    applyCommandOutput 7 [] exProgressEvent = [buildOutputMessage 7 exProgressEvent] := by
  have h := claim_C1_progress_replace 7 [exProgressEntry] exProgressEvent
    (by decide) (by decide) (by decide)
  have h0 := h.1 0 (by decide) (by decide)
    (fun j hj hlt => by
      have hj1 : j < 1 := by simpa using hj
      exact absurd hlt (by omega))
  have hemp := claim_C1_progress_replace 7 [] exProgressEvent
    (by decide) (by decide) (by decide)
  exact ⟨h0.1, h0.2.1, hemp.2 (fun e he => absurd he (List.not_mem_nil e))⟩

/-- Folding a sequence of commandOutput events into a log, pairing each event
with its fresh identifier (the source's `Date.now()`). -/
def applyCommandOutputs (lg : List OutputMessage) (events : List (Nat × SocketMessage)) :
    List OutputMessage :=
  events.foldl (fun acc e => applyCommandOutput e.1 acc e.2) lg

/-- Claim C2 (amended): for a sequence of commandOutput events each with
non-empty text and none having both isProgress=true and replaceLast=true,
the fold appends exactly one entry per event at the end, in arrival order;
in particular the log grows by exactly the number of events.  (The amendment
adds the non-empty-text requirement: an event with empty or absent text is
discarded, see C7.) -/
theorem claim_C2_append_order (lg : List OutputMessage) (events : List (Nat × SocketMessage))
    (h : ∀ e ∈ events, e.2.output.getD "" ≠ ""
      ∧ ¬(e.2.isProgress = true ∧ e.2.replaceLast = true)) :
    applyCommandOutputs lg events
      = lg ++ events.map (fun e => buildOutputMessage e.1 e.2) ∧
    (applyCommandOutputs lg events).length = lg.length + events.length := by
  have main : applyCommandOutputs lg events
      = lg ++ events.map (fun e => buildOutputMessage e.1 e.2) := by
    induction events generalizing lg with
    | nil => simp [applyCommandOutputs]
    | cons e es ih =>
      have he := h e (List.mem_cons_self e es)
      have hflag : (e.2.isProgress && e.2.replaceLast) = false := by
        cases hp : e.2.isProgress <;> cases hr : e.2.replaceLast <;> simp_all
      have hstep : applyCommandOutput e.1 lg e.2 = lg ++ [buildOutputMessage e.1 e.2] :=
        applyCommandOutput_append e.1 lg e.2 he.1 hflag
      have htail := ih (lg ++ [buildOutputMessage e.1 e.2])
        (fun x hx => h x (List.mem_cons_of_mem e hx))
      calc applyCommandOutputs lg (e :: es)
          = applyCommandOutputs (applyCommandOutput e.1 lg e.2) es := rfl
        _ = applyCommandOutputs (lg ++ [buildOutputMessage e.1 e.2]) es := by rw [hstep]
        _ = (lg ++ [buildOutputMessage e.1 e.2])
              ++ es.map (fun x => buildOutputMessage x.1 x.2) := htail
        _ = lg ++ (e :: es).map (fun x => buildOutputMessage x.1 x.2) := by
              simp [List.append_assoc]
  exact ⟨main, by simp [main]⟩

/-- Witness for C2: folding one plain "done" event into the empty log yields
exactly that entry. -/
theorem claim_C2_append_order_witness :
    applyCommandOutputs [] [(0, exPlainEvent)] = [buildOutputMessage 0 exPlainEvent] ∧
    (applyCommandOutputs [] [(0, exPlainEvent)]).length = 1 := by
  have h := claim_C2_append_order [] [(0, exPlainEvent)] (by decide)
  simpa using h

/-- Counterexample to C2 as stated: the event with absent text has neither
progress flag set, yet folding it into the empty log leaves the log empty —
it does not grow by one entry per event. -/
theorem claim_C2_counterexample :
    (¬(exEmptyEvent.isProgress = true ∧ exEmptyEvent.replaceLast = true)) ∧
    (applyCommandOutputs [] [(0, exEmptyEvent)]).length
      ≠ ([] : List OutputMessage).length + 1 := by
  decide

/-- Claim C3: a commandFinished event carrying a numeric exit code appends
exactly one summary entry — of kind success when the code is 0, of kind
error for any nonzero code — and clears the active command identifier. -/
theorem claim_C3_finished_summary (newId : Nat) (st : State) (data : SocketMessage)
    (code : Int) (h : data.exitCode = some code) :
    (handleCommandFinished newId st data).output
      = st.output ++ [finishedMessage newId code] ∧
    (code = 0 → (finishedMessage newId code).type = MsgType.success) ∧
    (code ≠ 0 → (finishedMessage newId code).type = MsgType.error) ∧
    (handleCommandFinished newId st data).activeCommandId = none := by
  refine ⟨?_, ?_, ?_, ?_⟩
  · simp [handleCommandFinished, h]
  · intro h0; simp [finishedMessage, h0]
  · intro h0; simp [finishedMessage, h0]
  · simp [handleCommandFinished, h]

/-- Witness for C3 at exit code 0 on a concrete running state. -/
theorem claim_C3_finished_summary_witness :
    (handleCommandFinished 9 exState exFinishedEvent).output
      = exState.output ++ [finishedMessage 9 0] ∧
    (finishedMessage 9 0).type = MsgType.success ∧
    (handleCommandFinished 9 exState exFinishedEvent).activeCommandId = none := by
  have h := claim_C3_finished_summary 9 exState exFinishedEvent 0 rfl
  exact ⟨h.1, h.2.1 rfl, h.2.2.2⟩

/-- Claim C7: a commandOutput event with empty or absent text leaves any log
unchanged, whatever its isProgress and replaceLast flags. -/
theorem claim_C7_empty_text_noop (newId : Nat) (lg : List OutputMessage)
    (data : SocketMessage) (htext : data.output.getD "" = "") :
    applyCommandOutput newId lg data = lg := by
  simp [applyCommandOutput, htext]

/-- Witness for C7: the absent-text event leaves a one-entry log unchanged. -/
theorem claim_C7_empty_text_noop_witness :
    applyCommandOutput 4 [exProgressEntry] exEmptyEvent = [exProgressEntry] :=
  claim_C7_empty_text_noop 4 [exProgressEntry] exEmptyEvent rfl

/-- Claim C10: a commandFinished event whose exit code is absent (the
`typeof data.exitCode === 'number'` guard fails) is a complete no-op: the
whole state, including the log, active command, loading flag and the
repo-refresh counter, is unchanged. -/
theorem claim_C10_no_exit_code_noop (newId : Nat) (st : State) (data : SocketMessage)
    (h : data.exitCode = none) :
    handleCommandFinished newId st data = st := by
  simp [handleCommandFinished, h]

/-- Witness for C10: a commandFinished payload without exit code leaves the
concrete running state untouched. -/
theorem claim_C10_no_exit_code_noop_witness :
    handleCommandFinished 6 exState exEmptyEvent = exState :=
  claim_C10_no_exit_code_noop 6 exState exEmptyEvent rfl

/-- A concrete idle state with a short URL and a non-empty log, used to
exercise the deploy failure path. -/
def exStateWithLog : State :=
  { gitUrl := "u", branch := "b", output := [exPlainEntry], activeCommandId := none
    , deployedRepos := [], isLoading := false, isConnected := true, repoRefreshes := 0 }

/-- Claim C4 (amended): for a deploy call with non-empty (after trimming)
URL, a network request is issued and the log is cleared up front; on a
successful response carrying a commandId that identifier becomes the active
command (over the cleared log); on any failure the resulting log consists of
exactly one error entry (the pre-call log having been cleared first, not
preserved), the loading flag is cleared, and the active command identifier
is not modified — so none is recorded when the call starts from idle. -/
theorem claim_C4_deploy_outcomes (newId : Nat) (st : State) (resp : FetchResult)
    (hurl : jsTrim st.gitUrl ≠ "") :
    (deployRepo newId st resp).2 = true ∧
    (∀ data cid, resp = FetchResult.ok data → data.success = true →
      data.commandId = some cid → cid ≠ "" →
      (deployRepo newId st resp).1.output = [] ∧
      (deployRepo newId st resp).1.activeCommandId = some cid) ∧
    (deploySucceeds resp = false →
      (deployRepo newId st resp).1.output = [deployErrorMessage newId resp] ∧
      (deployRepo newId st resp).1.activeCommandId = st.activeCommandId ∧
      (deployRepo newId st resp).1.isLoading = false) := by
  refine ⟨?_, ?_, ?_⟩
  · unfold deployRepo
    rw [if_neg hurl]
    cases resp with
    | ok data => dsimp only; split <;> rfl
    | netError msg => rfl
  · intro data cid hresp hsucc hcid hne
    subst hresp
    unfold deployRepo
    rw [if_neg hurl]
    have hcond : (data.success && (data.commandId.getD "" != "")) = true := by
      simp [hsucc, hcid, hne]
    dsimp only
    rw [if_pos hcond, hcid]
    exact ⟨rfl, rfl⟩
  · intro hfail
    unfold deployRepo
    rw [if_neg hurl]
    cases resp with
    | ok data =>
      have hc : (data.success && (data.commandId.getD "" != "")) = false := by
        simpa [deploySucceeds] using hfail
      dsimp only
      rw [if_neg (by simp [hc])]
      exact ⟨rfl, rfl, rfl⟩
    | netError msg => exact ⟨rfl, rfl, rfl⟩

/-- Witness for C4 on the failure path: a network error on a deploy from the
concrete idle state issues the request, leaves no active command, and the
resulting log is the single error entry. -/
theorem claim_C4_deploy_outcomes_witness :
    (deployRepo 5 exStateWithLog (FetchResult.netError "boom")).2 = true ∧
    (deployRepo 5 exStateWithLog (FetchResult.netError "boom")).1.output
      = [deployErrorMessage 5 (FetchResult.netError "boom")] ∧
    (deployRepo 5 exStateWithLog (FetchResult.netError "boom")).1.activeCommandId
      = none := by
  have h := claim_C4_deploy_outcomes 5 exStateWithLog (FetchResult.netError "boom")
    (by decide)
  have hf := h.2.2 rfl
  exact ⟨h.1, hf.1, hf.2.1⟩

/-- Counterexample to C4 as stated: on a failing deploy from a state whose
log already holds one entry, the resulting log has length 1, not the prior
length plus one — the error entry is not appended to the pre-call log, which
is cleared before the request. -/
theorem claim_C4_counterexample :
    (deployRepo 5 exStateWithLog (FetchResult.netError "boom")).1.output.length
      ≠ exStateWithLog.output.length + 1 := by
  decide

/-- Claim C5: a deploy call whose git URL trims to the empty string (empty
or whitespace-only) issues no network request and returns the state
entirely unchanged. -/
theorem claim_C5_blank_url_noop (newId : Nat) (st : State) (resp : FetchResult)
    (hurl : jsTrim st.gitUrl = "") :
    deployRepo newId st resp = (st, false) := by
  simp [deployRepo, hurl]

/-- A concrete state whose git URL is whitespace-only. -/
def exStateBlankUrl : State :=
  { exStateWithLog with gitUrl := "   " }

/-- Witness for C5 at a whitespace-only URL. -/
theorem claim_C5_blank_url_noop_witness :
    deployRepo 3 exStateBlankUrl (FetchResult.netError "x") = (exStateBlankUrl, false) :=
  claim_C5_blank_url_noop 3 exStateBlankUrl (FetchResult.netError "x") (by decide)

/-- Claim C6: the stop operation never mutates the component state — in
particular it never clears the active command identifier — and when there is
no active command it issues no network request either. -/
theorem claim_C6_stop_frame (st : State) (resp : FetchResult) :
    (stopProcess st resp).1 = st ∧
    (stopProcess st resp).1.activeCommandId = st.activeCommandId ∧
    (st.activeCommandId = none → (stopProcess st resp).2 = false) := by
  refine ⟨?_, ?_, ?_⟩
  · unfold stopProcess; split <;> rfl
  · unfold stopProcess; split <;> rfl
  · intro h; simp [stopProcess, h]

/-- Witness for C6 at a concrete idle state: no state change and no network
request. -/
theorem claim_C6_stop_frame_witness :
    (stopProcess exStateWithLog (FetchResult.netError "x")).1 = exStateWithLog ∧
    (stopProcess exStateWithLog (FetchResult.netError "x")).2 = false := by
  have h := claim_C6_stop_frame exStateWithLog (FetchResult.netError "x")
  exact ⟨h.1, h.2.2 rfl⟩

/-- Reading a valid index with a default falls back to the plain read. -/
theorem getD_eq_get_of_lt {α : Type} [Inhabited α] (l : List α) (i : Nat)
    (hi : i < l.length) : l.getD i default = l.get ⟨i, hi⟩ := by
  simp [List.getD, List.getElem?_eq_getElem hi]

/-- Any log entry with `isProgress = false` survives any commandOutput event
unchanged and in place: the replacement branch only ever targets an index
whose entry has `isProgress = true`, and the append branch touches no
existing index. -/
theorem applyCommandOutput_preserves_nonprogress (newId : Nat) (lg : List OutputMessage)
    (data : SocketMessage) (i : Nat) (hi : i < lg.length)
    (hp : (lg.get ⟨i, hi⟩).isProgress = false) :
    i < (applyCommandOutput newId lg data).length ∧
    (applyCommandOutput newId lg data).getD i default = lg.get ⟨i, hi⟩ := by
  by_cases htext : data.output.getD "" = ""
  · have hres : applyCommandOutput newId lg data = lg := by
      simp [applyCommandOutput, htext]
    rw [hres]
    exact ⟨hi, getD_eq_get_of_lt lg i hi⟩
  · by_cases hflag : (data.isProgress && data.replaceLast) = true
    · rcases findLastIndexFrom_spec lg (fun msg => msg.isProgress) lg.length with
        hidx | ⟨k, v, hidx, hv, hpv⟩
      · have hres : applyCommandOutput newId lg data
            = lg ++ [buildOutputMessage newId data] := by
          simp [applyCommandOutput, htext, hflag, findLastIndex, hidx]
        rw [hres]
        refine ⟨by simp; omega, ?_⟩
        have h1 : (lg ++ [buildOutputMessage newId data]).getD i default
            = lg.getD i default := by
          simp [List.getD, List.get?_eq_getElem?, List.getElem?_append_left hi]
        rw [h1]
        exact getD_eq_get_of_lt lg i hi
      · have hneq : k ≠ i := by
          intro hki
          subst hki
          rw [List.get?_eq_get hi] at hv
          have hveq : lg.get ⟨k, hi⟩ = v := Option.some_inj.mp hv
          rw [hveq, hpv] at hp
          exact absurd hp (by decide)
        have hres : applyCommandOutput newId lg data
            = lg.set k (buildOutputMessage newId data) := by
          have hne : ((k : Int) ≠ -1) := by omega
          simp [applyCommandOutput, htext, hflag, findLastIndex, hidx, hne]
        rw [hres]
        refine ⟨by simpa [List.length_set] using hi, ?_⟩
        have h2 : (lg.set k (buildOutputMessage newId data))[i]? = lg[i]? :=
          List.getElem?_set_ne hneq
        have h3 : (lg.set k (buildOutputMessage newId data)).getD i default
            = lg.getD i default := by
          simp [List.getD, List.get?_eq_getElem?, h2]
        rw [h3]
        exact getD_eq_get_of_lt lg i hi
    · have hf : (data.isProgress && data.replaceLast) = false := by
        cases hb : (data.isProgress && data.replaceLast) with
        | true => exact absurd hb hflag
        | false => rfl
      have hres : applyCommandOutput newId lg data
          = lg ++ [buildOutputMessage newId data] :=
        applyCommandOutput_append newId lg data htext hf
      rw [hres]
      refine ⟨by simp; omega, ?_⟩
      have h1 : (lg ++ [buildOutputMessage newId data]).getD i default
          = lg.getD i default := by
        simp [List.getD, List.get?_eq_getElem?, List.getElem?_append_left hi]
      rw [h1]
      exact getD_eq_get_of_lt lg i hi

/-- Claim C8: the summary entry appended by a commandFinished event is the
last entry of the log and is not a progress entry; and every entry with
`isProgress = false` already in a log — terminal entries in particular —
keeps its position, text and kind under every subsequent commandOutput
event, including progress+replaceLast events. -/
theorem claim_C8_terminal_never_replaced (newIdO newIdF : Nat) (st : State)
    (fdata : SocketMessage) (code : Int) (hcode : fdata.exitCode = some code) :
    ((handleCommandFinished newIdF st fdata).output.getLast?
        = some (finishedMessage newIdF code) ∧
      (finishedMessage newIdF code).isProgress = false) ∧
    (∀ lg : List OutputMessage, ∀ data : SocketMessage, ∀ i, ∀ hi : i < lg.length,
      (lg.get ⟨i, hi⟩).isProgress = false →
      i < (applyCommandOutput newIdO lg data).length ∧
      (applyCommandOutput newIdO lg data).getD i default = lg.get ⟨i, hi⟩) := by
  refine ⟨⟨?_, rfl⟩, ?_⟩
  · simp [handleCommandFinished, hcode]
  · intro lg data i hi hp
    exact applyCommandOutput_preserves_nonprogress newIdO lg data i hi hp

/-- Witness for C8: the exit-code-0 summary entry is last in the log after
the terminal event, and a later progress+replaceLast event leaves it in
place at its index. -/
theorem claim_C8_terminal_never_replaced_witness :
    (handleCommandFinished 9 exStateWithLog exFinishedEvent).output.getLast?
      = some (finishedMessage 9 0) ∧
    (applyCommandOutput 10 [finishedMessage 9 0] exProgressEvent).getD 0 default
      = finishedMessage 9 0 := by
  have h := claim_C8_terminal_never_replaced 10 9 exStateWithLog exFinishedEvent 0 rfl
  refine ⟨h.1.1, ?_⟩
  have h2 := h.2 [finishedMessage 9 0] exProgressEvent 0 (by simp) (by decide)
  exact h2.2

/-- A concrete event whose commandId differs from the active command of
`exState`. -/
def exMismatchedEvent : SocketMessage :=
  { commandId := "other", output := some "x", outputType := none, exitCode := none
    , isProgress := false, replaceLast := false }

/-- Counterexample to C9 as stated: with active command "cmd-1", a
commandOutput event carrying commandId "other" still changes the log — the
handlers never compare the event's commandId with the active command. -/
theorem claim_C9_counterexample :
    exState.activeCommandId = some "cmd-1" ∧
    exMismatchedEvent.commandId = "other" ∧
    (handleCommandOutput 0 exState exMismatchedEvent).output ≠ exState.output := by
  refine ⟨rfl, rfl, ?_⟩
  decide

/-- Claim C9 (amended): the stream handlers do not correlate events with the
active command: both handlers behave identically whatever the event's
commandId, and the commandOutput handler's log result does not depend on the
stored active command identifier, which is only used to target stop
requests. -/
theorem claim_C9_no_correlation (newId : Nat) (st : State) (data : SocketMessage)
    (cid : String) (a : Option String) :
    handleCommandOutput newId st { data with commandId := cid }
      = handleCommandOutput newId st data ∧
    handleCommandFinished newId st { data with commandId := cid }
      = handleCommandFinished newId st data ∧
    (handleCommandOutput newId { st with activeCommandId := a } data).output
      = (handleCommandOutput newId st data).output := by
  cases data
  exact ⟨rfl, rfl, rfl⟩

end BuildRepoUI
